import Mathlib

/-!
Shallow embedding of the startup-analysis pipeline
(`analyzer.py` and `report_generator.py`) and proofs about it.

Strings are handled as `List Char`; Python `re` searches are embedded as
explicit left-to-right scanners with the same greedy/backtracking behaviour
on the character classes the patterns use.  Python floats are modelled as
rationals.  Python `str.lower` is modelled on the ASCII range, which covers
all identifiers this code produces.
-/

namespace Startup

/-! ### Character classes used by the regular expressions in `analyzer.py` -/

def isUpperAZ (c : Char) : Bool := 'A' ≤ c && c ≤ 'Z'

def isLowerAZ (c : Char) : Bool := 'a' ≤ c && c ≤ 'z'

def isAlphaAZ (c : Char) : Bool := isUpperAZ c || isLowerAZ c

def isDigit09 (c : Char) : Bool := '0' ≤ c && c ≤ '9'

/-- ASCII portion of Python `\s`. -/
def pySpace (c : Char) : Bool :=
  c = ' ' || c = '\t' || c = '\n' || c = '\x0b' || c = '\x0c' || c = '\r'

/-- The CJK range `[一-龥]` used by the keyword tokenizer. -/
def isCJK (c : Char) : Bool := 0x4e00 ≤ c.toNat && c.toNat ≤ 0x9fa5

/-- Python `\w` restricted to the character repertoire relevant here
(ASCII alphanumerics, underscore and the CJK block). -/
def isWordChar (c : Char) : Bool :=
  isAlphaAZ c || isDigit09 c || c = '_' || isCJK c

/-- Python `str.strip()` on the ASCII whitespace set. -/
def pyStrip (s : String) : String :=
  String.mk (((s.data.dropWhile pySpace).reverse.dropWhile pySpace).reverse)

/-- Python `str.lower()` (ASCII range). -/
def pyLower (s : String) : String := String.mk (s.data.map Char.toLower)

/-! ### The company-name pattern `([A-Z][a-z]+(?:\s+[A-Z][a-z]+)*)` -/

/-- Match `[A-Z][a-z]+` at the head of the list; on success return the
matched word and the remainder. -/
def capWord : List Char → Option (List Char × List Char)
  | [] => none
  | c :: rest =>
    if isUpperAZ c then
      let lows := rest.takeWhile isLowerAZ
      if lows.isEmpty then none else some (c :: lows, rest.drop lows.length)
    else none

/-- Greedy `(?:\s+[A-Z][a-z]+)*` continuation: returns the extension of the
match and the remainder. -/
def nameTail (fuel : Nat) (s : List Char) : List Char × List Char :=
  match fuel with
  | 0 => ([], s)
  | fuel + 1 =>
    let ws := s.takeWhile pySpace
    if ws.isEmpty then ([], s)
    else
      match capWord (s.drop ws.length) with
      | none => ([], s)
      | some (w, rest) =>
        let t := nameTail fuel rest
        (ws ++ w ++ t.1, t.2)

/-- Leftmost match of the company-name pattern. -/
def companySearchAux (fuel : Nat) (s : List Char) : Option (List Char) :=
  match fuel, s with
  | 0, _ => none
  | _, [] => none
  | fuel + 1, c :: rest =>
    match capWord (c :: rest) with
    | some (w, r) => some (w ++ (nameTail r.length r).1)
    | none => companySearchAux fuel rest

/-- Embeds `re.search(r'([A-Z][a-z]+(?:\s+[A-Z][a-z]+)*)', text[:200])` — the
company-name heuristic shared by `_extract_key_elements` and `_build_graph`. -/
def companyCandidate (text : String) : Option String :=
  (companySearchAux (text.data.take 200).length (text.data.take 200)).map String.mk

/-! ### Labelled-line patterns `LABEL[：:]\s*([^\n]+)` -/

/-- Group captured by `\s*([^\n]+)` applied to the text after the colon,
with the regex backtracking behaviour: the greedy `\s*` takes the leading
whitespace run; if that exhausts the input, `\s*` backs off to the last
character that is not a newline. -/
def labelGroup (rest : List Char) : Option (List Char) :=
  let w := rest.takeWhile pySpace
  let r2 := rest.drop w.length
  if r2.isEmpty then
    match (rest.filter (fun c => c ≠ '\n')).getLast? with
    | some c => some [c]
    | none => none
  else
    some (r2.takeWhile (fun c => c ≠ '\n'))

/-- Leftmost match of `label[：:]\s*([^\n]+)`; returns the captured group. -/
def labelSearchAux (label : List Char) (fuel : Nat) (s : List Char) :
    Option (List Char) :=
  match fuel, s with
  | 0, _ => none
  | _, [] => none
  | fuel + 1, c :: rest =>
    if label.isPrefixOf (c :: rest) then
      match (c :: rest).drop label.length with
      | d :: rest2 =>
        if d = '：' || d = ':' then
          match labelGroup rest2 with
          | some g => some g
          | none => labelSearchAux label fuel rest
        else labelSearchAux label fuel rest
      | [] => labelSearchAux label fuel rest
    else labelSearchAux label fuel rest

def labelSearch (label : String) (s : String) : Option String :=
  (labelSearchAux label.data s.data.length s.data).map String.mk

/-! ### The founded-date pattern: four digits, a separator (dash, slash or 年),
one or two digits, a separator (dash, slash or 月), one or two digits, and an
optional 日. -/

def dateSep1 (c : Char) : Bool := c = '-' || c = '/' || c = '年'

def dateSep2 (c : Char) : Bool := c = '-' || c = '/' || c = '月'

/-- Try the middle `[0-9]{1,2}` with exactly `k` digits at `r1`, then the
rest of the pattern. -/
def foundedMid (d4 : List Char) (c1 : Char) (r1 : List Char) (k : Nat) :
    Option (List Char) :=
  let dm := r1.take k
  if dm.length = k && dm.all isDigit09 then
    match r1.drop k with
    | c2 :: r2 =>
      if dateSep2 c2 then
        let dl := (r2.takeWhile isDigit09).take 2
        if dl.isEmpty then none
        else
          let r3 := r2.drop dl.length
          let day := match r3 with
            | d :: _ => if d = '日' then [d] else ([] : List Char)
            | [] => []
          some (d4 ++ [c1] ++ dm ++ [c2] ++ dl ++ day)
      else none
    | [] => none
  else none

/-- Match the founded-date pattern anchored at the current position
(greedy two-digit middle group first, then backtrack to one digit). -/
def foundedAt (s : List Char) : Option (List Char) :=
  let d4 := s.take 4
  if d4.length = 4 && d4.all isDigit09 then
    match s.drop 4 with
    | c1 :: r1 =>
      if dateSep1 c1 then
        match foundedMid d4 c1 r1 2 with
        | some m => some m
        | none => foundedMid d4 c1 r1 1
      else none
    | [] => none
  else none

def foundedSearchAux (fuel : Nat) (s : List Char) : Option (List Char) :=
  match fuel, s with
  | 0, _ => none
  | _, [] => none
  | fuel + 1, c :: rest =>
    match foundedAt (c :: rest) with
    | some m => some m
    | none => foundedSearchAux fuel rest

def foundedSearch (s : String) : Option String :=
  (foundedSearchAux s.data.length s.data).map String.mk

/-! ### `_extract_key_elements` -/

/-- Embeds `StartupAnalyzer._extract_key_elements`: the dict of recognized fields,
in insertion order. -/
def extractKeyElements (text resp : String) : List (String × String) :=
  (match companyCandidate text with
   | some c => [("company_name", c)]
   | none => [])
  ++ (match foundedSearch resp with
      | some d => [("founded", d)]
      | none => [])
  ++ (match labelSearch "行业" resp with
      | some g => [("sector", pyStrip g)]
      | none => [])
  ++ (match labelSearch "价值主张" resp with
      | some g => [("one_liner", pyStrip g)]
      | none => [])

/-! ### `_extract_keywords` -/

/-- Maximal runs of characters satisfying `p` (as produced by
`re.findall` on a single-class repetition); fuel-driven scanner, called
with the input length as fuel. -/
def maxRunsAux (p : Char → Bool) (fuel : Nat) (s : List Char) :
    List (List Char) :=
  match fuel, s with
  | 0, _ => []
  | _, [] => []
  | fuel + 1, c :: rest =>
    if p c then (c :: rest.takeWhile p) :: maxRunsAux p fuel (rest.dropWhile p)
    else maxRunsAux p fuel rest

def maxRuns (p : Char → Bool) (s : List Char) : List (List Char) :=
  maxRunsAux p s.length s

/-- Embeds `re.findall(r'[一-龥]{2,}', s)`. -/
def cjkTokens (s : List Char) : List String :=
  ((maxRuns isCJK s).filter (fun r => decide (2 ≤ r.length))).map String.mk

/-- Embeds `re.findall(r'\b[A-Za-z]{3,}\b', s)`: maximal word-character runs that
are entirely alphabetic and of length at least 3. -/
def engTokens (s : List Char) : List String :=
  ((maxRuns isWordChar s).filter
    (fun r => r.all isAlphaAZ && decide (3 ≤ r.length))).map String.mk

def stopWords : List String :=
  ["公司", "我们", "以及", "一个", "的", "和", "是", "在", "对", "与", "及", "等"]

def allText (text resp : String) : String := text ++ " " ++ resp

/-- The token stream `chinese_words + english_words`. -/
def rawTokens (s : String) : List String := cjkTokens s.data ++ engTokens s.data

/-- Tokens surviving the stop-word and length filters. -/
def filteredTokens (text resp : String) : List String :=
  (rawTokens (allText text resp)).filter
    (fun w => !(stopWords.contains w) && decide (1 < w.length))

/-- One step of `word_freq[word] = word_freq.get(word, 0) + 1` on an
insertion-ordered association list (Python dict semantics). -/
def bump (m : List (String × Nat)) (w : String) : List (String × Nat) :=
  match m with
  | [] => [(w, 1)]
  | (k, v) :: rest => if k = w then (k, v + 1) :: rest else (k, v) :: bump rest w

def buildFreq (ts : List String) : List (String × Nat) := ts.foldl bump []

/-- Embeds `max(word_freq.values())` (0 on the empty dict, which the code guards). -/
def maxFreq (m : List (String × Nat)) : Nat := (m.map Prod.snd).foldl Nat.max 0

/-- Embeds `[(word, freq / max_freq) for ...]` in dict insertion order. -/
def kwPairs (m : List (String × Nat)) : List (String × ℚ) :=
  m.map (fun p => (p.1, (p.2 : ℚ) / (maxFreq m : ℚ)))

/-- Stable descending insertion for the weight ordering used by
`keywords.sort(key=lambda x: x[1], reverse=True)`. -/
def insertDesc (x : String × ℚ) : List (String × ℚ) → List (String × ℚ)
  | [] => [x]
  | y :: ys => if y.2 ≤ x.2 then x :: y :: ys else y :: insertDesc x ys

/-- Stable sort by weight, descending — the unique output of any stable
descending sort, hence of Python `list.sort(..., reverse=True)`. -/
def sortDesc (l : List (String × ℚ)) : List (String × ℚ) := l.foldr insertDesc []

/-- Embeds `StartupAnalyzer._extract_keywords`. -/
def extractKeywords (text resp : String) : List (String × ℚ) :=
  let m := buildFreq (filteredTokens text resp)
  if m.isEmpty then [] else (sortDesc (kwPairs m)).take 20

/-! ### `_build_graph` -/

structure GNode where
  id : String
  label : String
  ty : String
deriving DecidableEq, Repr

structure GEdge where
  source : String
  target : String
  rel : String
deriving DecidableEq, Repr

structure Graph where
  nodes : List GNode
  edges : List GEdge
deriving DecidableEq, Repr

def founderSearch (resp : String) : Option String :=
  (labelSearch "创始人" resp).map pyStrip

/-- Embeds `StartupAnalyzer._build_graph`. -/
def buildGraph (text resp : String) : Graph :=
  match companyCandidate text with
  | none => ⟨[], []⟩
  | some c =>
    match founderSearch resp with
    | none => ⟨[⟨"company:" ++ pyLower c, c, "Company"⟩], []⟩
    | some f =>
      ⟨[⟨"company:" ++ pyLower c, c, "Company"⟩,
        ⟨"person:" ++ pyLower f, f, "Person"⟩],
       [⟨"company:" ++ pyLower c, "person:" ++ pyLower f, "FOUNDED_BY"⟩]⟩

/-! ### `report_generator._graph_to_mermaid` -/

/-- Embeds `nid.replace(":", "_").replace("-", "_")`. -/
def sanitize (s : String) : String :=
  String.mk (s.data.map (fun c => if c = ':' || c = '-' then '_' else c))

/-- The node-declaration line appended for each node. -/
def nodeLine (n : GNode) : String :=
  "    " ++ sanitize n.id ++ "[\"" ++ n.label ++ " (" ++ n.ty ++ ")\"]"

/-- Embeds `node_ids.get(key)`: the dict maps each declared node id to its
sanitized form. -/
def lookupSan (g : Graph) (k : String) : Option String :=
  if g.nodes.any (fun n => n.id == k) then some (sanitize k) else none

/-- The edge line appended for an edge, or `none` when the edge is dropped
(`if s and t:` — a missing or empty sanitized endpoint is falsy). -/
def edgeLine (g : Graph) (e : GEdge) : Option String :=
  match lookupSan g e.source, lookupSan g e.target with
  | some s, some t =>
    if s ≠ "" ∧ t ≠ "" then
      some (if e.rel ≠ "" then "    " ++ s ++ " -->|" ++ e.rel ++ "| " ++ t
            else "    " ++ s ++ " --> " ++ t)
    else none
  | _, _ => none

/-- The `lines` list of `_graph_to_mermaid`. -/
def mermaidLines (g : Graph) : List String :=
  "graph TD" :: (g.nodes.map nodeLine ++ g.edges.filterMap (edgeLine g))

/-- Embeds `_graph_to_mermaid`. -/
def graphToMermaid (g : Graph) : String :=
  String.intercalate "\n" (mermaidLines g)

/-! ### `report_generator.render_radar_base64`

The matplotlib drawing itself cannot be embedded; the renderer is modelled
up to the data it plots: the picked labels and the closed value polygon.
`charting` stands for the availability of matplotlib and numpy. -/

def dimsOrder : List (String × String) :=
  [("people", "团队"), ("market", "市场"), ("traction", "牵引力"),
   ("moat", "护城河"), ("financing", "融资")]

def radarPicked (scoring : List (String × ℚ)) : List (String × ℚ) :=
  dimsOrder.filterMap (fun d => (scoring.lookup d.1).map (fun v => (d.2, v)))

def renderRadar (charting : Bool) (scoring : List (String × ℚ)) :
    Option (List String × List ℚ) :=
  if scoring.isEmpty || !charting then none
  else
    let picked := radarPicked scoring
    if picked.isEmpty then none
    else
      some (picked.map Prod.fst,
            picked.map Prod.snd ++ (picked.map Prod.snd).take 1)

/-! ### `report_generator.render_keyword_cloud_base64`

Modelled up to the data plotted: the selected `(term, weight)` list and its
min-max-normalized weights. -/

def listMinQ : List ℚ → ℚ
  | [] => 0
  | x :: xs => xs.foldl min x

def listMaxQ : List ℚ → ℚ
  | [] => 0
  | x :: xs => xs.foldl max x

/-- The `1e-9` epsilon added to the normalization denominator. -/
def epsQ : ℚ := 1 / 1000000000

/-- Embeds `wmax - wmin + 1e-9`, the denominator of the min-max normalization,
over the selected sublist. -/
def cloudDenom (kws : List (String × ℚ)) : ℚ :=
  listMaxQ (kws.map Prod.snd) - listMinQ (kws.map Prod.snd) + epsQ

def renderKeywordCloud (charting : Bool) (keywords : List (String × ℚ))
    (topk : Nat) : Option (List (String × ℚ)) :=
  if !charting || keywords.isEmpty then none
  else
    let kws := (sortDesc keywords).take topk
    if kws.isEmpty then none
    else
      let wmin := listMinQ (kws.map Prod.snd)
      some (kws.map (fun p => (p.1, (p.2 - wmin) / cloudDenom kws)))

/-! ### The analysis record, as consumed by the composers -/

structure SourceRec where
  title : String
  url : String
  level : String
  capturedAt : String
deriving DecidableEq, Repr

structure Ana where
  extractedAt : String
  rawResponse : String
  keyElements : List (String × String)
  sources : List SourceRec
deriving DecidableEq, Repr

/-- Python truthiness of an optional string (`None` and `""` are falsy). -/
def pyTruthy : Option String → Bool
  | some s => s ≠ ""
  | none => false

def optStr : Option String → String := fun o => o.getD ""

/-- Embeds `ke.get(k1) or ke.get(k2) or dflt`. -/
def pyOr2 (ke : List (String × String)) (k1 k2 dflt : String) : String :=
  match ke.lookup k1 with
  | some v1 => if v1 ≠ "" then v1 else
      match ke.lookup k2 with
      | some v2 => if v2 ≠ "" then v2 else dflt
      | none => dflt
  | none =>
      match ke.lookup k2 with
      | some v2 => if v2 ≠ "" then v2 else dflt
      | none => dflt

/-! ### `report_generator.render_markdown` -/

def sourceRow (s : SourceRec) : String :=
  "| " ++ s.title ++ " | " ++ s.url ++ " | " ++ s.level ++ " | "
    ++ s.capturedAt ++ " |"

/-- The `md` list of `render_markdown`, element by element. -/
def mdLines (ana : Ana) (radar graphImg mermaidOpt cloud : Option String) :
    List String :=
  ["# 🚀 创业公司分析报告 · " ++ pyOr2 ana.keyElements "company_name" "name" "N/A",
   "",
   "**生成时间**: " ++ ana.extractedAt,
   "",
   "## 🧩 核心要素",
   "",
   "| 要素 | 内容 |",
   "|---|---|",
   "| 公司名称 | " ++ pyOr2 ana.keyElements "company_name" "name" "N/A" ++ " |",
   "| 成立时间 | " ++ pyOr2 ana.keyElements "founded" "founded_date" "N/A" ++ " |",
   "| 所属领域 | " ++ pyOr2 ana.keyElements "sector" "industry" "N/A" ++ " |",
   "| 价值主张 | "
     ++ (let v := pyOr2 ana.keyElements "one_liner" "value_proposition" ""
         if v ≠ "" then v else "—") ++ " |",
   "| 简介/产品 | "
     ++ (let v := pyOr2 ana.keyElements "description" "product_description" ""
         if v ≠ "" then v else "—") ++ " |",
   ""]
  ++ (if pyTruthy radar then
        ["## 📊 投资评分雷达图",
         "![radar](data:image/png;base64," ++ optStr radar ++ ")",
         ""]
      else [])
  ++ ["## 🧠 LLM 分析摘要（原文）",
      "",
      pyStrip ana.rawResponse,
      "",
      "## 🔗 关系图谱"]
  ++ (if pyTruthy graphImg then
        ["![graph](data:image/png;base64," ++ optStr graphImg ++ ")"]
      else if pyTruthy mermaidOpt then
        ["```mermaid", optStr mermaidOpt, "```"]
      else ["> 暂无图谱数据"])
  ++ [""]
  ++ (if pyTruthy cloud then
        ["## ☁️ 关键词可视化",
         "![keywords](data:image/png;base64," ++ optStr cloud ++ ")",
         ""]
      else [])
  ++ (if !ana.sources.isEmpty then
        ["## 🗂️ 证据与来源",
         "",
         "| 标题 | URL | 等级 | 抓取时间 |",
         "|---|---|---|---|"]
        ++ ana.sources.map sourceRow
        ++ [""]
      else [])
  ++ ["---",
      "**数据与方法**：公开信息 + 知识图谱推理 + 大模型分析",
      "",
      "_本报告仅供参考，不构成投资建议。_"]

def renderMarkdown (ana : Ana) (radar graphImg mermaidOpt cloud : Option String) :
    String :=
  String.intercalate "\n" (mdLines ana radar graphImg mermaidOpt cloud)

/-! ### `report_generator.render_html`, degraded path (no jinja2)

`_HTML_TEMPLATE`, transcribed line by line (braces written as escapes). -/

def htmlTemplateLines : List String :=
  ["",
   "<!DOCTYPE html>",
   "<html lang=\"zh-CN\">",
   "<head>",
   "<meta charset=\"UTF-8\" />",
   "<meta name=\"viewport\" content=\"width=device-width, initial-scale=1.0\"/>",
   "<title>\x7b\x7b title \x7d\x7d</title>",
   "<style>",
   "  body \x7b font-family: -apple-system, BlinkMacSystemFont, \"Segoe UI\", Roboto, \"PingFang SC\", \"Hiragino Sans GB\",\"Microsoft YaHei\", Arial, sans-serif; margin: 24px; line-height: 1.55;\x7d",
   "  h1,h2 \x7b margin: 16px 0 8px; \x7d",
   "  .grid \x7b display: grid; grid-template-columns: 1fr 1fr; gap: 16px; \x7d",
   "  table \x7b width: 100%; border-collapse: collapse; \x7d",
   "  th, td \x7b border: 1px solid #e5e7eb; padding: 8px; text-align: left; \x7d",
   "  .card \x7b border: 1px solid #e5e7eb; border-radius: 12px; padding: 16px; \x7d",
   "  .muted \x7b color: #6b7280; \x7d",
   "  .img \x7b border:1px solid #e5e7eb; border-radius: 12px; padding: 8px; \x7d",
   "  pre \x7b background: #0b1021; color:#e5e7eb; padding:12px; border-radius:8px; overflow:auto;\x7d",
   "</style>",
   "</head>",
   "<body>",
   "  <h1>🚀 创业公司分析报告 · \x7b\x7b company_name \x7d\x7d</h1>",
   "  <div class=\"muted\">生成时间：\x7b\x7b extracted_at \x7d\x7d</div>",
   "",
   "  <div class=\"grid\" style=\"margin-top:16px;\">",
   "    <div class=\"card\">",
   "      <h2>🧩 核心要素</h2>",
   "      <table>",
   "        <tr><th>公司名称</th><td>\x7b\x7b company_name \x7d\x7d</td></tr>",
   "        <tr><th>成立时间</th><td>\x7b\x7b founded \x7d\x7d</td></tr>",
   "        <tr><th>所属领域</th><td>\x7b\x7b sector \x7d\x7d</td></tr>",
   "        <tr><th>价值主张</th><td>\x7b\x7b one_liner \x7d\x7d</td></tr>",
   "        <tr><th>简介/产品</th><td>\x7b\x7b desc \x7d\x7d</td></tr>",
   "      </table>",
   "    </div>",
   "",
   "    <div class=\"card\">",
   "      <h2>📊 投资评分雷达图</h2>",
   "      \x7b% if radar_b64 %\x7d",
   "        <img class=\"img\" src=\"data:image/png;base64,\x7b\x7b radar_b64 \x7d\x7d\" alt=\"radar\"/>",
   "      \x7b% else %\x7d",
   "        <div class=\"muted\">暂无评分或依赖缺失</div>",
   "      \x7b% endif %\x7d",
   "    </div>",
   "  </div>",
   "",
   "  <div class=\"card\" style=\"margin-top:16px;\">",
   "    <h2>🧠 LLM 分析摘要（原文）</h2>",
   "    <pre>\x7b\x7b raw_response \x7d\x7d</pre>",
   "  </div>",
   "",
   "  <div class=\"grid\" style=\"margin-top:16px;\">",
   "    <div class=\"card\">",
   "      <h2>🔗 关系图谱</h2>",
   "      \x7b% if graph_b64 %\x7d",
   "        <img class=\"img\" src=\"data:image/png;base64,\x7b\x7b graph_b64 \x7d\x7d\" alt=\"graph\"/>",
   "      \x7b% elif mermaid %\x7d",
   "        <pre class=\"mermaid\">\x7b\x7b mermaid \x7d\x7d</pre>",
   "        <div class=\"muted\">（在支持 Mermaid 的环境中可直接渲染）</div>",
   "      \x7b% else %\x7d",
   "        <div class=\"muted\">暂无图谱数据</div>",
   "      \x7b% endif %\x7d",
   "    </div>",
   "",
   "    <div class=\"card\">",
   "      <h2>☁️ 关键词可视化</h2>",
   "      \x7b% if cloud_b64 %\x7d",
   "        <img class=\"img\" src=\"data:image/png;base64,\x7b\x7b cloud_b64 \x7d\x7d\" alt=\"keywords\"/>",
   "      \x7b% else %\x7d",
   "        <div class=\"muted\">暂无关键词或依赖缺失</div>",
   "      \x7b% endif %\x7d",
   "    </div>",
   "  </div>",
   "",
   "  <div class=\"card\" style=\"margin-top:16px;\">",
   "    <h2>🗂️ 证据与来源</h2>",
   "    \x7b% if sources %\x7d",
   "      <table>",
   "        <thead><tr><th>标题</th><th>URL</th><th>等级</th><th>抓取时间</th></tr></thead>",
   "        <tbody>",
   "        \x7b% for s in sources %\x7d",
   "          <tr>",
   "            <td>\x7b\x7b s.title or \x27—\x27 \x7d\x7d</td>",
   "            <td>\x7b\x7b s.url or \x27—\x27 \x7d\x7d</td>",
   "            <td>\x7b\x7b s.level or \x27—\x27 \x7d\x7d</td>",
   "            <td>\x7b\x7b s.captured_at or \x27—\x27 \x7d\x7d</td>",
   "          </tr>",
   "        \x7b% endfor %\x7d",
   "        </tbody>",
   "      </table>",
   "    \x7b% else %\x7d",
   "      <div class=\"muted\">暂无来源</div>",
   "    \x7b% endif %\x7d",
   "  </div>",
   "",
   "  <div class=\"muted\" style=\"margin-top:16px;\">",
   "    数据与方法：公开信息 + 知识图谱推理 + 大模型分析。<br/>",
   "    本报告仅供参考，不构成投资建议。",
   "  </div>",
   "</body>",
   "</html>",
   ""]

def htmlTemplate : String := String.intercalate "\n" htmlTemplateLines

/-- The HTML substitution pipeline is modelled on the sequence of Unicode
code points of the text (an injective encoding of the string, chosen so
that the proof assistant's kernel can evaluate the pipeline). -/
def strCodes (s : String) : List Nat := s.data.map Char.toNat

/-- The code points of a list of lines joined by newlines — the code-point
encoding of `String.intercalate "\n"` of the lines. -/
def linesCodes : List String → List Nat
  | [] => []
  | [l] => strCodes l
  | l :: rest => strCodes l ++ 10 :: linesCodes rest

/-- The code points of the raw `_HTML_TEMPLATE` string. -/
def htmlTemplateCodes : List Nat := linesCodes htmlTemplateLines

def openBrace : Nat := 123

def pctSign : Nat := 37

def closeBrace : Nat := 125

def nlCode : Nat := 10

/-- Python `str.replace(pat, repl)`: replace all non-overlapping occurrences,
scanning left to right, without rescanning the replacement.  The `skip`
counter carries how many already-consumed pattern characters remain to be
dropped, keeping the recursion structural. -/
def replaceAllAux (pat repl : List Nat) (skip : Nat) : List Nat → List Nat
  | [] => []
  | c :: rest =>
    match skip with
    | n + 1 => replaceAllAux pat repl n rest
    | 0 =>
      if pat.isPrefixOf (c :: rest) then
        repl ++ replaceAllAux pat repl (pat.length - 1) rest
      else c :: replaceAllAux pat repl 0 rest

def replaceAll (pat repl s : List Nat) : List Nat :=
  if pat.isEmpty then s else replaceAllAux pat repl 0 s

/-- Number of characters consumed up to and including the first occurrence
of a percent sign followed by a closing brace; `none` if there is none. -/
def findCloseDist : List Nat → Option Nat
  | [] => none
  | [_] => none
  | a :: b :: rest =>
    if a = pctSign && b = closeBrace then some 2
    else (findCloseDist (b :: rest)).map (· + 1)

/-- Embeds `re.sub(r"\x7b%.*?%\x7d", "", html, flags=re.S)`: leftmost match of an
opening brace + percent, non-greedily through the nearest percent + closing
brace; positions without a full match are kept and scanning moves on by one
character. -/
def subControlAux (skip : Nat) : List Nat → List Nat
  | [] => []
  | a :: rest =>
    match skip with
    | n + 1 => subControlAux n rest
    | 0 =>
      match rest with
      | b :: rest2 =>
        if a = openBrace && b = pctSign then
          match findCloseDist rest2 with
          | some d => subControlAux (1 + d) rest
          | none => a :: subControlAux 0 rest
        else a :: subControlAux 0 rest
      | [] => [a]

def subControl (s : List Nat) : List Nat := subControlAux 0 s

/-- Number of characters consumed up to and including the first two
consecutive closing braces, failing on a newline first (the second `re.sub`
is run without `re.S`, so its dot does not match newlines). -/
def findDoubleDist : List Nat → Option Nat
  | [] => none
  | [_] => none
  | a :: b :: rest =>
    if a = nlCode then none
    else if a = closeBrace && b = closeBrace then some 2
    else (findDoubleDist (b :: rest)).map (· + 1)

/-- Embeds `re.sub(r"\x7b\x7b.*?\x7d\x7d", "", html)` (no `re.S`). -/
def subDoubleAux (skip : Nat) : List Nat → List Nat
  | [] => []
  | a :: rest =>
    match skip with
    | n + 1 => subDoubleAux n rest
    | 0 =>
      match rest with
      | b :: rest2 =>
        if a = openBrace && b = openBrace then
          match findDoubleDist rest2 with
          | some d => subDoubleAux (1 + d) rest
          | none => a :: subDoubleAux 0 rest
        else a :: subDoubleAux 0 rest
      | [] => [a]

def subDouble (s : List Nat) : List Nat := subDoubleAux 0 s

/-- Whether the text contains a percent sign followed by a closing brace. -/
def hasCloseMark : List Nat → Bool
  | [] => false
  | [_] => false
  | a :: b :: rest => (a = pctSign && b = closeBrace) || hasCloseMark (b :: rest)

/-- Whether the text still contains a full templating control block: an
opening brace + percent with a percent + closing brace somewhere after it. -/
def hasControlBlock : List Nat → Bool
  | [] => false
  | [_] => false
  | a :: b :: rest =>
    (a = openBrace && b = pctSign && hasCloseMark rest) || hasControlBlock (b :: rest)

/-- Python `str()` of the sources list (only the empty case is exercised by
the proofs; the non-empty case mirrors the dict repr shape). -/
def pyStrSources : List SourceRec → String
  | [] => "[]"
  | l => "[" ++ String.intercalate ", "
      (l.map (fun s =>
        "\x7b\x27title\x27: \x27" ++ s.title ++ "\x27, \x27url\x27: \x27"
          ++ s.url ++ "\x27, \x27level\x27: \x27" ++ s.level
          ++ "\x27, \x27captured_at\x27: \x27" ++ s.capturedAt ++ "\x27\x7d"))
      ++ "]"

/-- The `context` dict of `render_html`, in insertion order, with each value
already passed through `str(v if v is not None else "")`. -/
def htmlContext (ana : Ana) (radar graphImg mermaidOpt cloud : Option String) :
    List (String × String) :=
  [("title", "创业公司分析报告 · "
      ++ pyOr2 ana.keyElements "company_name" "name" "N/A"),
   ("company_name", pyOr2 ana.keyElements "company_name" "name" "N/A"),
   ("founded", pyOr2 ana.keyElements "founded" "founded_date" "N/A"),
   ("sector", pyOr2 ana.keyElements "sector" "industry" "N/A"),
   ("one_liner", pyOr2 ana.keyElements "one_liner" "value_proposition" "—"),
   ("desc", pyOr2 ana.keyElements "description" "product_description" "—"),
   ("extracted_at", ana.extractedAt),
   ("radar_b64", optStr radar),
   ("graph_b64", optStr graphImg),
   ("mermaid", optStr mermaidOpt),
   ("cloud_b64", optStr cloud),
   ("raw_response", ana.rawResponse),
   ("sources", pyStrSources ana.sources)]

/-- The degraded branch of `render_html` (jinja2 unavailable): literal
substitution of every `\x7b\x7b k \x7d\x7d` placeholder in context order,
then the two `re.sub` clean-ups, on the code-point encoding. -/
def renderHtmlDegradedChars (ana : Ana)
    (radar graphImg mermaidOpt cloud : Option String) : List Nat :=
  subDouble (subControl
    ((htmlContext ana radar graphImg mermaidOpt cloud).foldl
      (fun h kv =>
        replaceAll (strCodes ("\x7b\x7b " ++ kv.1 ++ " \x7d\x7d")) (strCodes kv.2) h)
      htmlTemplateCodes))

/-! ### Claim-side predicates and concrete instances -/

/-- Index of the first occurrence of `pat` as a contiguous substring. -/
def indexOfSub (pat : List Char) : List Char → Option Nat
  | [] => if pat.isEmpty then some 0 else none
  | c :: rest =>
    if pat.isPrefixOf (c :: rest) then some 0
    else (indexOfSub pat rest).map (· + 1)

/-- The tie-breaking rule claimed of the keyword weighter: equal-weight
terms appear in the order of their first occurrence in the combined input
text. -/
def textOrderTieBreak (text resp : String) : Prop :=
  ∀ i j : Nat, i < j →
    ∀ p q : String × ℚ,
      (extractKeywords text resp).get? i = some p →
      (extractKeywords text resp).get? j = some q →
      p.2 = q.2 →
      ∀ a b : Nat,
        indexOfSub p.1.data (allText text resp).data = some a →
        indexOfSub q.1.data (allText text resp).data = some b →
        a ≤ b

/-- Split into lines at newline characters. -/
def splitLines : List Char → List (List Char)
  | [] => [[]]
  | c :: rest =>
    match splitLines rest with
    | [] => [[]]
    | l :: ls => if c = '\n' then [] :: l :: ls else (c :: l) :: ls

/-- Stated from the spec wording of claim C3: the response contains a line
labelled 创始人 or founder followed by a name. -/
def specFounderLine (resp : String) : Bool :=
  (splitLines resp.data).any (fun l =>
    (("创始人:".data.isPrefixOf l || "创始人：".data.isPrefixOf l)
        && decide (4 < l.length))
    || (("founder:".data.isPrefixOf l || "founder：".data.isPrefixOf l)
        && decide (8 < l.length)))

def demoGraph : Graph :=
  ⟨[⟨"company:acme", "Acme", "Company"⟩, ⟨"person:jane", "Jane", "Person"⟩],
   [⟨"company:acme", "person:jane", "FOUNDED_BY"⟩]⟩

def demoEdge : GEdge := ⟨"company:acme", "person:jane", "FOUNDED_BY"⟩

/-- A record with no extracted elements (Scenario B shape). -/
def anaEmpty : Ana := ⟨"t", "r", [], []⟩

/-- A record whose raw LLM response contains templating-like text. -/
def anaAdversarial : Ana := ⟨"t", "\x7b\x7b%a%\x7d%-%\x7d", [], []⟩

/-! ## Theorems -/

/-! ### C1 — Scenario A -/

/-- C1 counterexample: on Scenario A the company-name regex greedily takes
the whole capitalized-word run, so the extractor maps `company_name` to
`"Acme Robotics"`, not `"Acme"` as the claim states. -/
theorem claim_C1_cex :
    (extractKeyElements "Acme Robotics builds warehouse robots."
        "行业: Robotics\n价值主张: Faster picking\n创始人: Jane Doe").lookup
        "company_name" = some "Acme Robotics"
    ∧ ¬ ((extractKeyElements "Acme Robotics builds warehouse robots."
        "行业: Robotics\n价值主张: Faster picking\n创始人: Jane Doe").lookup
        "company_name" = some "Acme") := by
  decide

/-- C1 amended: on Scenario A the extractor returns
`company_name = "Acme Robotics"`, `sector = "Robotics"`,
`one_liner = "Faster picking"`, and the graph builder returns exactly
2 nodes and exactly 1 edge, whose relation is `FOUNDED_BY`. -/
theorem claim_C1_amended :
    (extractKeyElements "Acme Robotics builds warehouse robots."
        "行业: Robotics\n价值主张: Faster picking\n创始人: Jane Doe").lookup
        "company_name" = some "Acme Robotics"
    ∧ (extractKeyElements "Acme Robotics builds warehouse robots."
        "行业: Robotics\n价值主张: Faster picking\n创始人: Jane Doe").lookup
        "sector" = some "Robotics"
    ∧ (extractKeyElements "Acme Robotics builds warehouse robots."
        "行业: Robotics\n价值主张: Faster picking\n创始人: Jane Doe").lookup
        "one_liner" = some "Faster picking"
    ∧ (buildGraph "Acme Robotics builds warehouse robots."
        "行业: Robotics\n价值主张: Faster picking\n创始人: Jane Doe").nodes.length = 2
    ∧ (buildGraph "Acme Robotics builds warehouse robots."
        "行业: Robotics\n价值主张: Faster picking\n创始人: Jane Doe").edges.map
        GEdge.rel = ["FOUNDED_BY"] := by
  decide

/-! ### C3 — founder line implies a Person node and FOUNDED_BY edge -/

/-- C3 counterexample: the builder only recognizes the 创始人 label, not the
ASCII `founder` label, so a response with a `founder:` line yields no Person
node and no edge even though the company heuristic succeeds. -/
theorem claim_C3_cex :
    specFounderLine "founder: Jane Doe" = true
    ∧ (buildGraph "Acme builds robots." "founder: Jane Doe").edges = []
    ∧ (buildGraph "Acme builds robots." "founder: Jane Doe").nodes.filter
        (fun n => n.ty == "Person") = [] := by
  decide

/-- C3 amended: whenever the company-name heuristic matches the source text
and the response contains a 创始人-labelled line (the `founder` label is not
recognized), the graph has exactly one Person node and exactly one
FOUNDED_BY edge from the company node to that person node. -/
theorem claim_C3_amended (text resp c f : String)
    (hc : companyCandidate text = some c)
    (hf : founderSearch resp = some f) :
    (buildGraph text resp).nodes.filter (fun n => n.ty == "Person")
      = [⟨"person:" ++ pyLower f, f, "Person"⟩]
    ∧ (buildGraph text resp).edges
      = [⟨"company:" ++ pyLower c, "person:" ++ pyLower f, "FOUNDED_BY"⟩] := by
  unfold buildGraph
  rw [hc, hf]
  exact ⟨rfl, rfl⟩

theorem claim_C3_amended_witness :
    companyCandidate "Acme builds." = some "Acme"
    ∧ founderSearch "创始人: Jane Doe" = some "Jane Doe"
    ∧ ((buildGraph "Acme builds." "创始人: Jane Doe").nodes.filter
          (fun n => n.ty == "Person")
        = [⟨"person:jane doe", "Jane Doe", "Person"⟩]
      ∧ (buildGraph "Acme builds." "创始人: Jane Doe").edges
        = [⟨"company:acme", "person:jane doe", "FOUNDED_BY"⟩]) :=
  ⟨by decide, by decide,
   claim_C3_amended "Acme builds." "创始人: Jane Doe" "Acme" "Jane Doe"
     (by decide) (by decide)⟩

/-! ### C10 — key set of the field extractor -/

/-- C10: every entry of the extracted mapping has one of the four keys
`company_name`, `founded`, `sector`, `one_liner`; in particular the
extractor never produces a `description` entry. -/
theorem claim_C10 (text resp k v : String)
    (h : (k, v) ∈ extractKeyElements text resp) :
    (k = "company_name" ∨ k = "founded" ∨ k = "sector" ∨ k = "one_liner")
    ∧ k ≠ "description" := by
  have hA : ∀ x ∈ (match companyCandidate text with
      | some c => [("company_name", c)]
      | none => ([] : List (String × String))), x.1 = "company_name" := by
    cases companyCandidate text <;> simp
  have hB : ∀ x ∈ (match foundedSearch resp with
      | some d => [("founded", d)]
      | none => ([] : List (String × String))), x.1 = "founded" := by
    cases foundedSearch resp <;> simp
  have hC : ∀ x ∈ (match labelSearch "行业" resp with
      | some g => [("sector", pyStrip g)]
      | none => ([] : List (String × String))), x.1 = "sector" := by
    cases labelSearch "行业" resp <;> simp
  have hD : ∀ x ∈ (match labelSearch "价值主张" resp with
      | some g => [("one_liner", pyStrip g)]
      | none => ([] : List (String × String))), x.1 = "one_liner" := by
    cases labelSearch "价值主张" resp <;> simp
  unfold extractKeyElements at h
  rcases List.mem_append.mp h with h1 | hrest
  · rcases List.mem_append.mp h1 with h2 | hC'
    · rcases List.mem_append.mp h2 with hA' | hB'
      · have := hA _ hA'; simp at this; subst this
        exact ⟨Or.inl rfl, by decide⟩
      · have := hB _ hB'; simp at this; subst this
        exact ⟨Or.inr (Or.inl rfl), by decide⟩
    · have := hC _ hC'; simp at this; subst this
      exact ⟨Or.inr (Or.inr (Or.inl rfl)), by decide⟩
  · have := hD _ hrest; simp at this; subst this
    exact ⟨Or.inr (Or.inr (Or.inr rfl)), by decide⟩

theorem claim_C10_witness :
    (("company_name", "Acme") ∈ extractKeyElements "Acme x" "")
    ∧ (("company_name" = "company_name" ∨ "company_name" = "founded"
        ∨ "company_name" = "sector" ∨ "company_name" = "one_liner")
       ∧ "company_name" ≠ "description") :=
  ⟨by decide, claim_C10 "Acme x" "" "company_name" "Acme" (by decide)⟩

/-! ### Frequency-map and sorting lemmas for the keyword weighter -/

theorem bump_ne_nil (m : List (String × Nat)) (w : String) : bump m w ≠ [] := by
  cases m with
  | nil => simp [bump]
  | cons p rest =>
    obtain ⟨k, v⟩ := p
    simp only [bump]
    split <;> simp

theorem foldl_bump_ne_nil (ts : List String) (m : List (String × Nat))
    (hm : m ≠ []) : ts.foldl bump m ≠ [] := by
  induction ts generalizing m with
  | nil => simpa using hm
  | cons t ts ih => exact ih _ (bump_ne_nil m t)

theorem buildFreq_ne_nil (ts : List String) (h : ts ≠ []) : buildFreq ts ≠ [] := by
  cases ts with
  | nil => exact absurd rfl h
  | cons t ts =>
    simp only [buildFreq, List.foldl_cons]
    exact foldl_bump_ne_nil ts _ (bump_ne_nil [] t)

theorem bump_pos (m : List (String × Nat)) (w : String)
    (h : ∀ p ∈ m, 1 ≤ p.2) : ∀ p ∈ bump m w, 1 ≤ p.2 := by
  induction m with
  | nil =>
    intro p hp
    simp [bump] at hp
    subst hp
    exact Nat.le_refl 1
  | cons q rest ih =>
    obtain ⟨k, v⟩ := q
    intro p hp
    simp only [bump] at hp
    split at hp
    · rcases List.mem_cons.mp hp with rfl | hp
      · exact Nat.le_succ_of_le (h (k, v) (List.mem_cons_self _ _))
      · exact h p (List.mem_cons_of_mem _ hp)
    · rcases List.mem_cons.mp hp with rfl | hp
      · exact h (k, v) (List.mem_cons_self _ _)
      · exact ih (fun r hr => h r (List.mem_cons_of_mem _ hr)) p hp

theorem foldl_bump_pos (ts : List String) (m : List (String × Nat))
    (hm : ∀ p ∈ m, 1 ≤ p.2) : ∀ p ∈ ts.foldl bump m, 1 ≤ p.2 := by
  induction ts generalizing m with
  | nil => simpa using hm
  | cons t ts ih => exact ih _ (bump_pos m t hm)

theorem buildFreq_pos (ts : List String) : ∀ p ∈ buildFreq ts, 1 ≤ p.2 :=
  foldl_bump_pos ts [] (by simp)

theorem le_foldl_max (l : List Nat) (a : Nat) : a ≤ l.foldl Nat.max a := by
  induction l generalizing a with
  | nil => simp
  | cons x xs ih =>
    simp only [List.foldl_cons]
    exact le_trans (Nat.le_max_left a x) (ih (Nat.max a x))

theorem mem_le_foldl_max (l : List Nat) (a v : Nat) (hv : v ∈ l) :
    v ≤ l.foldl Nat.max a := by
  induction l generalizing a with
  | nil => simp at hv
  | cons x xs ih =>
    simp only [List.foldl_cons]
    rcases List.mem_cons.mp hv with rfl | h
    · exact le_trans (Nat.le_max_right a v) (le_foldl_max xs _)
    · exact ih _ h

theorem foldl_max_mem (l : List Nat) (a : Nat) :
    l.foldl Nat.max a = a ∨ l.foldl Nat.max a ∈ l := by
  induction l generalizing a with
  | nil => left; rfl
  | cons x xs ih =>
    simp only [List.foldl_cons]
    rcases ih (Nat.max a x) with h | h
    · by_cases hax : a ≤ x
      · right
        have hx : a.max x = x := Nat.max_eq_right hax
        rw [h, hx]
        exact List.mem_cons_self _ _
      · left
        have hx : a.max x = a := Nat.max_eq_left (le_of_not_le hax)
        rw [h, hx]
    · right; exact List.mem_cons_of_mem _ h

theorem mem_le_maxFreq (m : List (String × Nat)) (p : String × Nat)
    (hp : p ∈ m) : p.2 ≤ maxFreq m :=
  mem_le_foldl_max _ 0 p.2 (List.mem_map_of_mem Prod.snd hp)

theorem maxFreq_attained (m : List (String × Nat)) (hm : m ≠ [])
    (hpos : ∀ p ∈ m, 1 ≤ p.2) : ∃ p ∈ m, p.2 = maxFreq m := by
  rcases foldl_max_mem (m.map Prod.snd) 0 with h | h
  · cases m with
    | nil => exact absurd rfl hm
    | cons q rest =>
      have h1 : 1 ≤ q.2 := hpos q (List.mem_cons_self _ _)
      have h2 : q.2 ≤ maxFreq (q :: rest) :=
        mem_le_maxFreq _ _ (List.mem_cons_self _ _)
      have h0 : maxFreq (q :: rest) = 0 := h
      omega
  · rcases List.mem_map.mp h with ⟨p, hp, hps⟩
    exact ⟨p, hp, hps⟩

theorem one_le_maxFreq (m : List (String × Nat)) (hm : m ≠ [])
    (hpos : ∀ p ∈ m, 1 ≤ p.2) : 1 ≤ maxFreq m := by
  cases m with
  | nil => exact absurd rfl hm
  | cons q rest =>
    exact le_trans (hpos q (List.mem_cons_self _ _))
      (mem_le_maxFreq _ _ (List.mem_cons_self _ _))

theorem insertDesc_perm (x : String × ℚ) (l : List (String × ℚ)) :
    List.Perm (insertDesc x l) (x :: l) := by
  induction l with
  | nil => exact List.Perm.refl _
  | cons y ys ih =>
    simp only [insertDesc]
    split
    · exact List.Perm.refl _
    · exact (ih.cons y).trans (List.Perm.swap x y ys)

theorem sortDesc_perm (l : List (String × ℚ)) : List.Perm (sortDesc l) l := by
  induction l with
  | nil => exact List.Perm.refl _
  | cons a l ih =>
    show List.Perm (insertDesc a (sortDesc l)) (a :: l)
    exact (insertDesc_perm a _).trans (ih.cons a)

theorem insertDesc_sorted (x : String × ℚ) (l : List (String × ℚ))
    (h : l.Pairwise (fun a b => b.2 ≤ a.2)) :
    (insertDesc x l).Pairwise (fun a b => b.2 ≤ a.2) := by
  induction l with
  | nil => simp [insertDesc]
  | cons y ys ih =>
    rcases List.pairwise_cons.mp h with ⟨hy, hys⟩
    simp only [insertDesc]
    split
    · rename_i hle
      refine List.pairwise_cons.mpr ⟨?_, h⟩
      intro z hz
      rcases List.mem_cons.mp hz with rfl | hz
      · exact hle
      · exact le_trans (hy z hz) hle
    · rename_i hlt
      refine List.pairwise_cons.mpr ⟨?_, ih hys⟩
      intro z hz
      rcases List.mem_cons.mp ((insertDesc_perm x ys).subset hz) with rfl | hz2
      · exact le_of_lt (not_le.mp hlt)
      · exact hy z hz2

theorem sortDesc_sorted (l : List (String × ℚ)) :
    (sortDesc l).Pairwise (fun a b => b.2 ≤ a.2) := by
  induction l with
  | nil => simp [sortDesc]
  | cons a l ih =>
    show (insertDesc a (sortDesc l)).Pairwise _
    exact insertDesc_sorted a _ ih

theorem filter_insertDesc (w : ℚ) (x : String × ℚ) (l : List (String × ℚ)) :
    (insertDesc x l).filter (fun p => decide (p.2 = w))
      = if x.2 = w then x :: l.filter (fun p => decide (p.2 = w))
        else l.filter (fun p => decide (p.2 = w)) := by
  induction l with
  | nil =>
    by_cases hx : x.2 = w <;> simp [insertDesc, List.filter, hx]
  | cons y ys ih =>
    simp only [insertDesc]
    by_cases hyx : y.2 ≤ x.2
    · rw [if_pos hyx]
      by_cases hx : x.2 = w <;> simp [List.filter_cons, hx]
    · rw [if_neg hyx]
      by_cases hy : y.2 = w
      · have hx : x.2 ≠ w := fun h => hyx (by rw [h, hy])
        simp [List.filter_cons, hy, hx, ih]
      · by_cases hx : x.2 = w <;> simp [List.filter_cons, hy, hx, ih]

theorem filter_sortDesc (w : ℚ) (l : List (String × ℚ)) :
    (sortDesc l).filter (fun p => decide (p.2 = w))
      = l.filter (fun p => decide (p.2 = w)) := by
  induction l with
  | nil => rfl
  | cons a l ih =>
    show (insertDesc a (sortDesc l)).filter _ = _
    rw [filter_insertDesc]
    by_cases ha : a.2 = w
    · rw [if_pos ha, ih, List.filter_cons]
      simp [ha]
    · rw [if_neg ha, ih, List.filter_cons]
      simp [ha]

/-! ### C2 — shape of the keyword weighter's output -/

/-- C2: whenever the concatenated input yields at least one surviving
keyword token, the output is non-empty, has at most 20 entries, its head
weight is exactly 1, and every weight lies in the half-open interval
(0, 1]. -/
theorem claim_C2 (text resp : String) (h : filteredTokens text resp ≠ []) :
    extractKeywords text resp ≠ []
    ∧ (extractKeywords text resp).length ≤ 20
    ∧ (∃ p, (extractKeywords text resp).head? = some p ∧ p.2 = 1)
    ∧ (∀ p ∈ extractKeywords text resp, 0 < p.2 ∧ p.2 ≤ 1) := by
  set m := buildFreq (filteredTokens text resp) with hm_def
  have hm : m ≠ [] := buildFreq_ne_nil _ h
  have hpos : ∀ p ∈ m, 1 ≤ p.2 := fun p hp => buildFreq_pos _ p (hm_def ▸ hp)
  have hM1 : 1 ≤ maxFreq m := one_le_maxFreq m hm hpos
  have hMQ : (0 : ℚ) < (maxFreq m : ℚ) := by exact_mod_cast hM1
  have hb : ∀ p ∈ kwPairs m, 0 < p.2 ∧ p.2 ≤ 1 := by
    intro p hp
    rcases List.mem_map.mp hp with ⟨q, hq, rfl⟩
    constructor
    · exact div_pos (by exact_mod_cast hpos q hq) hMQ
    · rw [div_le_one hMQ]
      exact_mod_cast mem_le_maxFreq m q hq
  have hone : ∃ p ∈ kwPairs m, p.2 = 1 := by
    rcases maxFreq_attained m hm hpos with ⟨q, hq, hqv⟩
    refine ⟨(q.1, (q.2 : ℚ) / (maxFreq m : ℚ)), List.mem_map_of_mem _ hq, ?_⟩
    show (q.2 : ℚ) / (maxFreq m : ℚ) = 1
    rw [hqv]
    exact div_self (ne_of_gt hMQ)
  have hkw_ne : kwPairs m ≠ [] := by
    intro h0
    exact hm (List.map_eq_nil_iff.mp h0)
  have hperm := sortDesc_perm (kwPairs m)
  have hr'ne : sortDesc (kwPairs m) ≠ [] := by
    intro h0
    have hlen := hperm.length_eq
    rw [h0] at hlen
    exact hkw_ne (List.length_eq_zero.mp hlen.symm)
  have hEmpty : m.isEmpty = false := by
    cases hmm : m with
    | nil => exact absurd hmm hm
    | cons a l => rfl
  have hr : extractKeywords text resp = (sortDesc (kwPairs m)).take 20 := by
    unfold extractKeywords
    simp [hEmpty]
  obtain ⟨p0, t, ht⟩ := List.exists_cons_of_ne_nil hr'ne
  have hall : ∀ p ∈ sortDesc (kwPairs m), 0 < p.2 ∧ p.2 ≤ 1 :=
    fun p hp => hb p (hperm.subset hp)
  have hp0 : p0.2 = 1 := by
    rcases hone with ⟨q, hq, hq1⟩
    have hqmem : q ∈ sortDesc (kwPairs m) := (hperm.mem_iff).mpr hq
    have hsorted := sortDesc_sorted (kwPairs m)
    rw [ht] at hqmem hsorted
    have hle1 : p0.2 ≤ 1 := by
      have := hall p0 (ht ▸ List.mem_cons_self p0 t)
      exact this.2
    rcases List.mem_cons.mp hqmem with rfl | hqt
    · exact hq1
    · have := (List.pairwise_cons.mp hsorted).1 q hqt
      have h1le : (1 : ℚ) ≤ p0.2 := hq1 ▸ this
      exact le_antisymm hle1 h1le
  refine ⟨?_, ?_, ?_, ?_⟩
  · rw [hr, ht, List.take_succ_cons]
    exact List.cons_ne_nil _ _
  · rw [hr, List.length_take]
    exact min_le_left _ _
  · refine ⟨p0, ?_, hp0⟩
    rw [hr, ht, List.take_succ_cons, List.head?_cons]
  · intro p hp
    rw [hr] at hp
    exact hall p (List.take_subset _ _ hp)

theorem claim_C2_witness :
    filteredTokens "Acme robotics" "" ≠ []
    ∧ (extractKeywords "Acme robotics" "" ≠ []
       ∧ (extractKeywords "Acme robotics" "").length ≤ 20
       ∧ (∃ p, (extractKeywords "Acme robotics" "").head? = some p ∧ p.2 = 1)
       ∧ (∀ p ∈ extractKeywords "Acme robotics" "", 0 < p.2 ∧ p.2 ≤ 1)) :=
  ⟨by decide, claim_C2 "Acme robotics" "" (by decide)⟩

/-! ### C4 — ordering of the keyword weighter's output -/

/-- C4 counterexample: on source `"abc 中中"` the extractor emits 中中 before
abc (CJK tokens are counted before alphabetic tokens) although abc occurs
first in the combined input text, so equal-weight terms are not ordered by
first occurrence in the text. -/
theorem claim_C4_cex : ¬ textOrderTieBreak "abc 中中" "" := by
  intro h
  have hfreq : buildFreq (filteredTokens "abc 中中" "")
      = [("中中", 1), ("abc", 1)] := by decide
  have hmax : maxFreq [("中中", 1), ("abc", 1)] = 1 := by decide
  have hkw : kwPairs [("中中", 1), ("abc", 1)]
      = [("中中", ((1 : ℕ) : ℚ) / ((1 : ℕ) : ℚ)),
         ("abc", ((1 : ℕ) : ℚ) / ((1 : ℕ) : ℚ))] := by
    simp [kwPairs, hmax]
  have hext : extractKeywords "abc 中中" ""
      = [("中中", ((1 : ℕ) : ℚ) / ((1 : ℕ) : ℚ)),
         ("abc", ((1 : ℕ) : ℚ) / ((1 : ℕ) : ℚ))] := by
    unfold extractKeywords
    rw [hfreq]
    show (sortDesc (kwPairs [("中中", 1), ("abc", 1)])).take 20 = _
    rw [hkw]
    show (insertDesc _ (insertDesc _ [])).take 20 = _
    simp [insertDesc]
  have hgot0 : (extractKeywords "abc 中中" "").get? 0
      = some ("中中", ((1 : ℕ) : ℚ) / ((1 : ℕ) : ℚ)) := by
    rw [hext]
    rfl
  have hgot1 : (extractKeywords "abc 中中" "").get? 1
      = some ("abc", ((1 : ℕ) : ℚ) / ((1 : ℕ) : ℚ)) := by
    rw [hext]
    rfl
  have hidx1 : indexOfSub "中中".data (allText "abc 中中" "").data = some 4 := by
    decide
  have hidx2 : indexOfSub "abc".data (allText "abc 中中" "").data = some 0 := by
    decide
  have h01 := h 0 1 (by omega) _ _ hgot0 hgot1 rfl 4 0 hidx1 hidx2
  omega

/-- C4 amended: the output is the 20-term truncation of the stable descending
sort of the frequency list; it is sorted by weight descending, and within any
equal-weight class the order is the first-occurrence order of the frequency
map, i.e. of the token stream (all CJK tokens, then all alphabetic tokens) —
not the first-occurrence order in the raw combined text. -/
theorem claim_C4_amended (text resp : String) (w : ℚ) :
    extractKeywords text resp
      = (sortDesc (kwPairs (buildFreq (filteredTokens text resp)))).take 20
    ∧ (extractKeywords text resp).Pairwise (fun a b => b.2 ≤ a.2)
    ∧ (sortDesc (kwPairs (buildFreq (filteredTokens text resp)))).filter
          (fun p => decide (p.2 = w))
        = (kwPairs (buildFreq (filteredTokens text resp))).filter
            (fun p => decide (p.2 = w)) := by
  have h1 : extractKeywords text resp
      = (sortDesc (kwPairs (buildFreq (filteredTokens text resp)))).take 20 := by
    unfold extractKeywords
    cases hmm : buildFreq (filteredTokens text resp) with
    | nil => simp [kwPairs, sortDesc]
    | cons a l => simp
  refine ⟨h1, ?_, filter_sortDesc w _⟩
  rw [h1]
  exact (sortDesc_sorted _).sublist (List.take_sublist _ _)

/-! ### C5 — Mermaid rendering declares every emitted edge's endpoints -/

theorem lookupSan_some (g : Graph) (k s : String) (h : lookupSan g k = some s) :
    ∃ n ∈ g.nodes, n.id = k := by
  unfold lookupSan at h
  split at h
  · rename_i hany
    rcases List.any_eq_true.mp hany with ⟨n, hn, hb⟩
    exact ⟨n, hn, by simpa using hb⟩
  · exact absurd h (by simp)

theorem lookupSan_none (g : Graph) (k : String)
    (h : ∀ n ∈ g.nodes, n.id ≠ k) : lookupSan g k = none := by
  unfold lookupSan
  rw [if_neg]
  intro hany
  rcases List.any_eq_true.mp hany with ⟨n, hn, hb⟩
  exact h n hn (by simpa using hb)

/-- C5: the textual (Mermaid) rendering is a function of the graph, every
edge line it emits refers to two declared nodes whose declaration lines are
part of the same rendering, and an edge with an undeclared endpoint
produces no line at all. -/
theorem claim_C5 :
    (∀ (g : Graph), ∀ e ∈ g.edges, ∀ l, edgeLine g e = some l →
        l ∈ mermaidLines g
        ∧ (∃ n ∈ g.nodes, n.id = e.source ∧ nodeLine n ∈ mermaidLines g)
        ∧ (∃ n ∈ g.nodes, n.id = e.target ∧ nodeLine n ∈ mermaidLines g))
    ∧ (∀ (g : Graph) (e : GEdge),
        ((∀ n ∈ g.nodes, n.id ≠ e.source) ∨ (∀ n ∈ g.nodes, n.id ≠ e.target)) →
        edgeLine g e = none) := by
  constructor
  · intro g e he l hl
    have hmem : l ∈ mermaidLines g :=
      List.mem_cons_of_mem _ (List.mem_append.mpr (Or.inr
        (List.mem_filterMap.mpr ⟨e, he, hl⟩)))
    have hboth : (∃ n ∈ g.nodes, n.id = e.source)
        ∧ (∃ n ∈ g.nodes, n.id = e.target) := by
      unfold edgeLine at hl
      cases hs : lookupSan g e.source with
      | none =>
        rw [hs] at hl
        cases ht : lookupSan g e.target <;> rw [ht] at hl <;> simp at hl
      | some s =>
        cases ht : lookupSan g e.target with
        | none => rw [hs, ht] at hl; simp at hl
        | some t =>
          exact ⟨lookupSan_some g _ s hs, lookupSan_some g _ t ht⟩
    rcases hboth with ⟨⟨n1, hn1, hid1⟩, ⟨n2, hn2, hid2⟩⟩
    refine ⟨hmem, ⟨n1, hn1, hid1, ?_⟩, ⟨n2, hn2, hid2, ?_⟩⟩
    · exact List.mem_cons_of_mem _ (List.mem_append.mpr (Or.inl
        (List.mem_map_of_mem nodeLine hn1)))
    · exact List.mem_cons_of_mem _ (List.mem_append.mpr (Or.inl
        (List.mem_map_of_mem nodeLine hn2)))
  · intro g e hor
    unfold edgeLine
    rcases hor with hno | hno
    · rw [lookupSan_none g e.source hno]
    · rw [lookupSan_none g e.target hno]
      cases hs : lookupSan g e.source <;> rfl

theorem claim_C5_witness :
    demoEdge ∈ demoGraph.edges
    ∧ edgeLine demoGraph demoEdge
        = some "    company_acme -->|FOUNDED_BY| person_jane"
    ∧ ("    company_acme -->|FOUNDED_BY| person_jane" ∈ mermaidLines demoGraph
       ∧ (∃ n ∈ demoGraph.nodes, n.id = demoEdge.source
            ∧ nodeLine n ∈ mermaidLines demoGraph)
       ∧ (∃ n ∈ demoGraph.nodes, n.id = demoEdge.target
            ∧ nodeLine n ∈ mermaidLines demoGraph)) :=
  ⟨by decide, by decide,
   claim_C5.1 demoGraph demoEdge (by decide)
     "    company_acme -->|FOUNDED_BY| person_jane" (by decide)⟩

/-! ### C7 — the core-elements table of the Markdown composer -/

/-- C7 counterexample: with no extracted elements the company-name row of
the core table is rendered as `N/A`, not as an em-dash. -/
theorem claim_C7_cex :
    (mdLines anaEmpty none none none none).get? 8 = some "| 公司名称 | N/A |"
    ∧ ¬ ((mdLines anaEmpty none none none none).get? 8
          = some "| 公司名称 | — |") := by
  decide

/-- C7 amended: when all recognized keys are missing, the name, founded and
sector rows are rendered as `N/A`, and only the value-proposition and
description rows are rendered as an em-dash. -/
theorem claim_C7_amended (ana : Ana)
    (radar graphImg mermaidOpt cloud : Option String)
    (h : ∀ k ∈ (["company_name", "name", "founded", "founded_date", "sector",
        "industry", "one_liner", "value_proposition", "description",
        "product_description"] : List String), ana.keyElements.lookup k = none) :
    (mdLines ana radar graphImg mermaidOpt cloud).take 13
      = ["# 🚀 创业公司分析报告 · N/A", "", "**生成时间**: " ++ ana.extractedAt, "",
         "## 🧩 核心要素", "", "| 要素 | 内容 |", "|---|---|",
         "| 公司名称 | N/A |", "| 成立时间 | N/A |", "| 所属领域 | N/A |",
         "| 价值主张 | — |", "| 简介/产品 | — |"] := by
  have e1 : pyOr2 ana.keyElements "company_name" "name" "N/A" = "N/A" := by
    unfold pyOr2
    rw [h "company_name" (by simp), h "name" (by simp)]
  have e2 : pyOr2 ana.keyElements "founded" "founded_date" "N/A" = "N/A" := by
    unfold pyOr2
    rw [h "founded" (by simp), h "founded_date" (by simp)]
  have e3 : pyOr2 ana.keyElements "sector" "industry" "N/A" = "N/A" := by
    unfold pyOr2
    rw [h "sector" (by simp), h "industry" (by simp)]
  have e4 : pyOr2 ana.keyElements "one_liner" "value_proposition" "" = "" := by
    unfold pyOr2
    rw [h "one_liner" (by simp), h "value_proposition" (by simp)]
  have e5 : pyOr2 ana.keyElements "description" "product_description" "" = "" := by
    unfold pyOr2
    rw [h "description" (by simp), h "product_description" (by simp)]
  unfold mdLines
  rw [e1, e2, e3, e4, e5]
  rfl

theorem claim_C7_amended_witness :
    (mdLines anaEmpty none none none none).take 13
      = ["# 🚀 创业公司分析报告 · N/A", "", "**生成时间**: t", "",
         "## 🧩 核心要素", "", "| 要素 | 内容 |", "|---|---|",
         "| 公司名称 | N/A |", "| 成立时间 | N/A |", "| 所属领域 | N/A |",
         "| 价值主张 | — |", "| 简介/产品 | — |"] :=
  claim_C7_amended anaEmpty none none none none (by decide)

/-! ### C8 — the radar renderer and the five recognized dimensions -/

theorem radarPicked_nil_iff (s : List (String × ℚ)) :
    radarPicked s = []
      ↔ (s.lookup "people" = none ∧ s.lookup "market" = none
         ∧ s.lookup "traction" = none ∧ s.lookup "moat" = none
         ∧ s.lookup "financing" = none) := by
  unfold radarPicked dimsOrder
  cases h1 : s.lookup "people" <;> cases h2 : s.lookup "market" <;>
    cases h3 : s.lookup "traction" <;> cases h4 : s.lookup "moat" <;>
    cases h5 : s.lookup "financing" <;>
    simp [List.filterMap_cons, h1, h2, h3, h4, h5]

/-- C8: with the charting capability available, the radar renderer produces
something precisely when the score mapping contains at least one of the five
recognized dimensions; a mapping with none of them (even a non-empty one)
produces nothing. -/
theorem claim_C8 (scoring : List (String × ℚ)) :
    (renderRadar true scoring).isSome = true
      ↔ ((scoring.lookup "people").isSome = true
         ∨ (scoring.lookup "market").isSome = true
         ∨ (scoring.lookup "traction").isSome = true
         ∨ (scoring.lookup "moat").isSome = true
         ∨ (scoring.lookup "financing").isSome = true) := by
  cases scoring with
  | nil => simp [renderRadar, List.lookup]
  | cons q rest =>
    have hne : (q :: rest).isEmpty = false := rfl
    by_cases hp : radarPicked (q :: rest) = []
    · have hval : renderRadar true (q :: rest) = none := by
        simp [renderRadar, hne, hp]
      rw [hval]
      have hall := (radarPicked_nil_iff (q :: rest)).mp hp
      simp [hall.1, hall.2.1, hall.2.2.1, hall.2.2.2.1, hall.2.2.2.2]
    · have hval : (renderRadar true (q :: rest)).isSome = true := by
        cases hpp : radarPicked (q :: rest) with
        | nil => exact absurd hpp hp
        | cons a l => simp [renderRadar, hne, hpp]
      rw [hval]
      simp only [true_iff]
      by_contra hcon
      push_neg at hcon
      obtain ⟨h1, h2, h3, h4, h5⟩ := hcon
      exact hp ((radarPicked_nil_iff (q :: rest)).mpr
        ⟨Option.not_isSome_iff_eq_none.mp h1,
         Option.not_isSome_iff_eq_none.mp h2,
         Option.not_isSome_iff_eq_none.mp h3,
         Option.not_isSome_iff_eq_none.mp h4,
         Option.not_isSome_iff_eq_none.mp h5⟩)

theorem claim_C8_witness :
    (renderRadar true [("people", (5 : ℚ))]).isSome = true :=
  (claim_C8 [("people", (5 : ℚ))]).mpr (Or.inl (by simp [List.lookup]))

/-! ### C9 — keyword-cloud normalization safety and topK cap -/

theorem foldl_min_const (x : ℚ) (xs : List ℚ) (h : ∀ y ∈ xs, y = x) :
    xs.foldl min x = x := by
  induction xs with
  | nil => rfl
  | cons y ys ih =>
    simp only [List.foldl_cons]
    rw [h y (List.mem_cons_self _ _), min_self]
    exact ih (fun z hz => h z (List.mem_cons_of_mem _ hz))

theorem foldl_max_const (x : ℚ) (xs : List ℚ) (h : ∀ y ∈ xs, y = x) :
    xs.foldl max x = x := by
  induction xs with
  | nil => rfl
  | cons y ys ih =>
    simp only [List.foldl_cons]
    rw [h y (List.mem_cons_self _ _), max_self]
    exact ih (fun z hz => h z (List.mem_cons_of_mem _ hz))

/-- C9: for a non-empty keyword list in which all weights are equal, the
min-max normalization denominator of the selected sublist is non-zero (the
epsilon guards the zero range), and the number of selected items never
exceeds the requested topK. -/
theorem claim_C9 (keywords : List (String × ℚ)) (topk : Nat)
    (hne : keywords ≠ [])
    (heq : ∀ p ∈ keywords, ∀ q ∈ keywords, p.2 = q.2) :
    cloudDenom ((sortDesc keywords).take topk) ≠ 0
    ∧ ((renderKeywordCloud true keywords topk).getD []).length ≤ topk := by
  have hsub : ∀ p ∈ (sortDesc keywords).take topk, p ∈ keywords :=
    fun p hp => (sortDesc_perm keywords).subset (List.take_subset _ _ hp)
  have hminmax : listMaxQ (((sortDesc keywords).take topk).map Prod.snd)
      = listMinQ (((sortDesc keywords).take topk).map Prod.snd) := by
    cases hkw : ((sortDesc keywords).take topk).map Prod.snd with
    | nil => rfl
    | cons x xs =>
      have hx : ∀ y ∈ xs, y = x := by
        intro y hy
        have hyl : y ∈ ((sortDesc keywords).take topk).map Prod.snd :=
          hkw ▸ List.mem_cons_of_mem _ hy
        have hxl : x ∈ ((sortDesc keywords).take topk).map Prod.snd :=
          hkw ▸ List.mem_cons_self _ _
        rcases List.mem_map.mp hyl with ⟨p, hp, rfl⟩
        rcases List.mem_map.mp hxl with ⟨q, hq, rfl⟩
        exact heq p (hsub p hp) q (hsub q hq)
      show xs.foldl max x = xs.foldl min x
      rw [foldl_max_const x xs hx, foldl_min_const x xs hx]
  have hden : cloudDenom ((sortDesc keywords).take topk) ≠ 0 := by
    unfold cloudDenom
    rw [hminmax, sub_self, zero_add]
    norm_num [epsQ]
  refine ⟨hden, ?_⟩
  have hke : keywords.isEmpty = false := by
    cases hkk : keywords with
    | nil => exact absurd hkk hne
    | cons a l => rfl
  by_cases hkws : ((sortDesc keywords).take topk).isEmpty = true
  · simp [renderKeywordCloud, hke, hkws]
  · have hkws2 : ((sortDesc keywords).take topk).isEmpty = false := by
      cases h2 : ((sortDesc keywords).take topk).isEmpty
      · rfl
      · exact absurd h2 hkws
    simp [renderKeywordCloud, hke, hkws2]

theorem claim_C9_witness :
    ([("a", (1 : ℚ)), ("b", 1)] : List (String × ℚ)) ≠ []
    ∧ (cloudDenom ((sortDesc [("a", (1 : ℚ)), ("b", 1)]).take 30) ≠ 0
       ∧ ((renderKeywordCloud true [("a", (1 : ℚ)), ("b", 1)] 30).getD
            []).length ≤ 30) :=
  ⟨by simp,
   claim_C9 [("a", (1 : ℚ)), ("b", 1)] 30 (by simp)
     (by
       intro p hp q hq
       simp only [List.mem_cons, List.not_mem_nil, or_false] at hp hq
       rcases hp with rfl | rfl <;> rcases hq with rfl | rfl <;> rfl)⟩

/-! ### C6 — residual templating syntax on the degraded HTML path -/

set_option maxRecDepth 100000 in
set_option maxHeartbeats 8000000 in
/-- C6: the degraded (no-jinja2) HTML path does not strip all residual
templating control syntax.  When the raw LLM response contains
templating-like text, the first `re.sub` can splice kept fragments into a
new control block: for this record the final document still contains an
opening-brace + percent later closed by percent + closing-brace, although
the claim says no such block may remain. -/
theorem claim_C6_bug :
    hasControlBlock (renderHtmlDegradedChars anaAdversarial none none none none)
      = true := by
  decide

end Startup
